import Mathlib

/-!
Shallow embedding of the trade-execution engine of the Virtual Stock
Trading Platform.  The engine is `AwsClient.execute_trade` in
`aws_client.py`, modelled on its in-memory backend (`USE_AWS = false`,
so every DynamoDB branch is skipped and the `_users`/`_portfolio`/
`_trades` dictionaries are the state).  The order endpoint
`api_orders` and the valuation view `api_portfolio` come from `app.py`.

Money and prices are rationals.  Python's `round(x, 2)` rounds half to
even; it is embedded as `round2`.  The `uuid`/timestamp fields of a
trade record are freshly generated identifiers that no claim reads, so
they are omitted from the `Trade` structure.
-/

namespace StockTrading

/-- Round half to even to an integer, the rounding of Python's builtin
`round`. -/
def pyRound (x : ℚ) : ℤ :=
  let f := ⌊x⌋
  let r := x - f
  if r < 1/2 then f
  else if 1/2 < r then f + 1
  else if f % 2 = 0 then f else f + 1

/-- Python's `round(x, 2)`: round to 2 decimal places. -/
def round2 (x : ℚ) : ℚ := (pyRound (100 * x) : ℚ) / 100

/-- `User` dataclass of `aws_client.py`. -/
structure User where
  user_id : String
  email : String
  password : String
  cash_balance : ℚ
deriving DecidableEq

/-- `Holding` dataclass of `aws_client.py`. -/
structure Holding where
  symbol : String
  quantity : ℤ
  avg_buy_price : ℚ
deriving DecidableEq

/-- `Trade` dataclass of `aws_client.py`; the generated `trade_id`,
`user_id` and `timestamp` fields carry no trading data and are
omitted. -/
structure Trade where
  symbol : String
  side : String
  quantity : ℤ
  price : ℚ
  amount : ℚ
deriving DecidableEq

/-- One user's portfolio: the `Dict[str, Holding]` of
`AwsClient._portfolio[user_id]`, as an association list with unique
keys. -/
abbrev Portfolio := List (String × Holding)

/-- `portfolio.get(symbol)`. -/
def pget : Portfolio → String → Option Holding
  | [], _ => none
  | (s, h) :: rest, sym => if s = sym then some h else pget rest sym

/-- `portfolio[symbol] = holding`: replace the entry in place, or append
a new one. -/
def pset : Portfolio → String → Holding → Portfolio
  | [], sym, h => [(sym, h)]
  | (s, h0) :: rest, sym, h =>
    if s = sym then (s, h) :: rest else (s, h0) :: pset rest sym h

/-- `portfolio.pop(symbol, None)`: drop the entry for `symbol` (dict
keys are unique, so dropping every entry with that key is the same
operation). -/
def pdel (P : Portfolio) (sym : String) : Portfolio :=
  P.filter (fun e => e.1 != sym)

/-- The state `execute_trade` reads and mutates for one account: the
`User` record, the user's slice of `AwsClient._portfolio`, and the
user's trade list in `AwsClient._trades`. -/
structure AccountState where
  user : User
  portfolio : Portfolio
  trades : List Trade
deriving DecidableEq

/-- The `ValueError`s raised by `execute_trade`. -/
inductive TradeError where
  /-- `"Insufficient cash balance"` -/
  | insufficientFunds
  /-- `"Insufficient holdings"` -/
  | insufficientHoldings
  /-- `"side must be BUY or SELL"` -/
  | invalidSide
deriving DecidableEq

/-- `AwsClient.execute_trade(user, symbol, side, qty, price)`
(aws_client.py lines 296-382, in-memory branches).  Returns the
post-call account state together with the created `Trade` or the
`ValueError` raised.  In the source every `raise` happens before any
mutation, so an error is returned with the input state. -/
def execute_trade (st : AccountState) (symbol side : String) (qty : ℤ) (price : ℚ) :
    AccountState × Except TradeError Trade :=
  let amount := price * (qty : ℚ)
  if side = "BUY" then
    if st.user.cash_balance < amount then (st, .error .insufficientFunds)
    else
      let cash' := st.user.cash_balance - amount
      let holding : Holding :=
        match pget st.portfolio symbol with
        | some existing =>
          let new_qty := existing.quantity + qty
          let new_avg := ((existing.quantity : ℚ) * existing.avg_buy_price + amount) / (new_qty : ℚ)
          { symbol := symbol, quantity := new_qty, avg_buy_price := round2 new_avg }
        | none =>
          { symbol := symbol, quantity := qty, avg_buy_price := round2 price }
      let trade : Trade :=
        { symbol := symbol, side := side, quantity := qty,
          price := round2 price, amount := round2 amount }
      ({ user := { st.user with cash_balance := cash' },
         portfolio := pset st.portfolio symbol holding,
         trades := st.trades ++ [trade] }, .ok trade)
  else if side = "SELL" then
    match pget st.portfolio symbol with
    | none => (st, .error .insufficientHoldings)
    | some existing =>
      if existing.quantity < qty then (st, .error .insufficientHoldings)
      else
        let cash' := st.user.cash_balance + amount
        let new_qty := existing.quantity - qty
        let portfolio' :=
          if new_qty = 0 then pdel st.portfolio symbol
          else pset st.portfolio symbol
            { symbol := symbol, quantity := new_qty,
              avg_buy_price := existing.avg_buy_price }
        let trade : Trade :=
          { symbol := symbol, side := side, quantity := qty,
            price := round2 price, amount := round2 amount }
        ({ user := { st.user with cash_balance := cash' },
           portfolio := portfolio',
           trades := st.trades ++ [trade] }, .ok trade)
  else (st, .error .invalidSide)

/-- The arguments of one `execute_trade` call. -/
structure TradeCall where
  symbol : String
  side : String
  qty : ℤ
  price : ℚ
deriving DecidableEq

/-- A fresh account: signup state with an initial balance, an empty
portfolio and an empty trade list. -/
def freshAccount (cash : ℚ) : AccountState :=
  { user := { user_id := "u1", email := "u1@example.com", password := "pw",
              cash_balance := cash },
    portfolio := [], trades := [] }

/-- Run a sequence of `execute_trade` calls on one account, keeping the
state a failed call leaves behind (unchanged). -/
def runTrades (st : AccountState) : List TradeCall → AccountState
  | [] => st
  | c :: cs => runTrades (execute_trade st c.symbol c.side c.qty c.price).1 cs

/-- The model invariant of claim C1: non-negative cash balance and
every stored holding has positive quantity. -/
def Inv (st : AccountState) : Prop :=
  0 ≤ st.user.cash_balance ∧ ∀ e ∈ st.portfolio, 0 < e.2.quantity

/-! ### Association-list lemmas for the portfolio dictionary -/

theorem mem_pset {P : Portfolio} {sym : String} {h : Holding} {e : String × Holding}
    (he : e ∈ pset P sym h) : e = (sym, h) ∨ e ∈ P := by
  induction P with
  | nil =>
    simp only [pset, List.mem_singleton] at he
    exact Or.inl he
  | cons hd tl ih =>
    obtain ⟨s, h0⟩ := hd
    simp only [pset] at he
    split at he
    next hs =>
      rcases List.mem_cons.mp he with h1 | h1
      · exact Or.inl (by rw [h1, hs])
      · exact Or.inr (List.mem_cons_of_mem _ h1)
    next hs =>
      rcases List.mem_cons.mp he with h1 | h1
      · exact Or.inr (List.mem_cons.mpr (Or.inl h1))
      · rcases ih h1 with h2 | h2
        · exact Or.inl h2
        · exact Or.inr (List.mem_cons_of_mem _ h2)

theorem mem_pdel {P : Portfolio} {sym : String} {e : String × Holding}
    (he : e ∈ pdel P sym) : e ∈ P :=
  List.mem_of_mem_filter he

theorem pget_mem {P : Portfolio} {sym : String} {h : Holding}
    (hg : pget P sym = some h) : (sym, h) ∈ P := by
  induction P with
  | nil => simp [pget] at hg
  | cons hd tl ih =>
    obtain ⟨s, h0⟩ := hd
    simp only [pget] at hg
    split at hg
    next hs =>
      cases hg
      exact List.mem_cons.mpr (Or.inl (by rw [hs]))
    next hs =>
      exact List.mem_cons_of_mem _ (ih hg)

theorem pget_pset_self (P : Portfolio) (sym : String) (h : Holding) :
    pget (pset P sym h) sym = some h := by
  induction P with
  | nil => simp [pset, pget]
  | cons hd tl ih =>
    obtain ⟨s, h0⟩ := hd
    simp only [pset]
    split
    next hs => simp [pget, hs]
    next hs => simp [pget, hs, ih]

theorem pget_pset_ne (P : Portfolio) (sym : String) (h : Holding)
    {s : String} (hs : s ≠ sym) : pget (pset P sym h) s = pget P s := by
  induction P with
  | nil =>
    have hsym : sym ≠ s := fun he => hs he.symm
    simp [pset, pget, hsym]
  | cons hd tl ih =>
    obtain ⟨s0, h0⟩ := hd
    simp only [pset]
    split
    next h0s =>
      subst h0s
      have hs0 : s0 ≠ s := fun he => hs he.symm
      simp [pget, hs0]
    next h0s => simp [pget, ih]

theorem pget_pdel_self (P : Portfolio) (sym : String) :
    pget (pdel P sym) sym = none := by
  induction P with
  | nil => simp [pdel, pget]
  | cons hd tl ih =>
    obtain ⟨s, h0⟩ := hd
    by_cases hs : s = sym
    · simpa [pdel, pget, hs] using ih
    · simpa [pdel, pget, hs] using ih

theorem pget_pdel_ne (P : Portfolio) (sym : String)
    {s : String} (hs : s ≠ sym) : pget (pdel P sym) s = pget P s := by
  induction P with
  | nil => simp [pdel, pget]
  | cons hd tl ih =>
    obtain ⟨s0, h0⟩ := hd
    by_cases h0sym : s0 = sym
    · subst h0sym
      have hs0 : s0 ≠ s := fun he => hs he.symm
      simpa [pdel, pget, hs0] using ih
    · by_cases h0s : s0 = s
      · simp [pdel, pget, h0sym, h0s, hs]
      · simpa [pdel, pget, h0sym, h0s] using ih

/-! ### Case characterizations of `execute_trade` -/

theorem execute_trade_buy_insufficient {st : AccountState} {sym : String}
    {qty : ℤ} {price : ℚ} (h : st.user.cash_balance < price * (qty : ℚ)) :
    execute_trade st sym "BUY" qty price = (st, .error .insufficientFunds) := by
  simp [execute_trade, h]

theorem execute_trade_buy_new {st : AccountState} {sym : String}
    {qty : ℤ} {price : ℚ} (h : ¬ st.user.cash_balance < price * (qty : ℚ))
    (hget : pget st.portfolio sym = none) :
    execute_trade st sym "BUY" qty price =
      ({ user := { st.user with cash_balance := st.user.cash_balance - price * (qty : ℚ) },
         portfolio := pset st.portfolio sym
           { symbol := sym, quantity := qty, avg_buy_price := round2 price },
         trades := st.trades ++
           [{ symbol := sym, side := "BUY", quantity := qty,
              price := round2 price, amount := round2 (price * (qty : ℚ)) }] },
       .ok { symbol := sym, side := "BUY", quantity := qty,
             price := round2 price, amount := round2 (price * (qty : ℚ)) }) := by
  simp [execute_trade, h, hget]

theorem execute_trade_buy_existing {st : AccountState} {sym : String}
    {qty : ℤ} {price : ℚ} {ex : Holding}
    (h : ¬ st.user.cash_balance < price * (qty : ℚ))
    (hget : pget st.portfolio sym = some ex) :
    execute_trade st sym "BUY" qty price =
      ({ user := { st.user with cash_balance := st.user.cash_balance - price * (qty : ℚ) },
         portfolio := pset st.portfolio sym
           { symbol := sym, quantity := ex.quantity + qty,
             avg_buy_price := round2 (((ex.quantity : ℚ) * ex.avg_buy_price +
               price * (qty : ℚ)) / ((ex.quantity + qty : ℤ) : ℚ)) },
         trades := st.trades ++
           [{ symbol := sym, side := "BUY", quantity := qty,
              price := round2 price, amount := round2 (price * (qty : ℚ)) }] },
       .ok { symbol := sym, side := "BUY", quantity := qty,
             price := round2 price, amount := round2 (price * (qty : ℚ)) }) := by
  simp [execute_trade, h, hget]

theorem execute_trade_sell_absent {st : AccountState} {sym : String}
    {qty : ℤ} {price : ℚ} (hget : pget st.portfolio sym = none) :
    execute_trade st sym "SELL" qty price = (st, .error .insufficientHoldings) := by
  simp [execute_trade, hget]

theorem execute_trade_sell_short {st : AccountState} {sym : String}
    {qty : ℤ} {price : ℚ} {ex : Holding}
    (hget : pget st.portfolio sym = some ex) (hq : ex.quantity < qty) :
    execute_trade st sym "SELL" qty price = (st, .error .insufficientHoldings) := by
  simp [execute_trade, hget, hq]

theorem execute_trade_sell_ok {st : AccountState} {sym : String}
    {qty : ℤ} {price : ℚ} {ex : Holding}
    (hget : pget st.portfolio sym = some ex) (hq : ¬ ex.quantity < qty) :
    execute_trade st sym "SELL" qty price =
      ({ user := { st.user with cash_balance := st.user.cash_balance + price * (qty : ℚ) },
         portfolio := if ex.quantity - qty = 0 then pdel st.portfolio sym
           else pset st.portfolio sym
             { symbol := sym, quantity := ex.quantity - qty,
               avg_buy_price := ex.avg_buy_price },
         trades := st.trades ++
           [{ symbol := sym, side := "SELL", quantity := qty,
              price := round2 price, amount := round2 (price * (qty : ℚ)) }] },
       .ok { symbol := sym, side := "SELL", quantity := qty,
             price := round2 price, amount := round2 (price * (qty : ℚ)) }) := by
  simp [execute_trade, hget, hq]

theorem execute_trade_invalid_side {st : AccountState} {sym side : String}
    {qty : ℤ} {price : ℚ} (hb : side ≠ "BUY") (hs : side ≠ "SELL") :
    execute_trade st sym side qty price = (st, .error .invalidSide) := by
  simp [execute_trade, hb, hs]

/-- A concrete account used by witnesses: cash 97000 and an AAPL
holding of 10 shares at average cost 180. -/
def stWithAAPL : AccountState :=
  { user := { user_id := "u1", email := "u1@example.com", password := "pw",
              cash_balance := 97000 },
    portfolio := [("AAPL", { symbol := "AAPL", quantity := 10, avg_buy_price := 180 })],
    trades := [] }

/-! ### Claim theorems -/

/-- C4: a BUY through `execute_trade` fails with the InsufficientFunds
error exactly when the account's `cash_balance` is less than
`price * quantity`, and on that error path the account state (cash
balance, portfolio and trade ledger) is unchanged. -/
theorem buy_insufficient_funds_iff_and_no_mutation
    (st : AccountState) (sym : String) (qty : ℤ) (price : ℚ) :
    ((execute_trade st sym "BUY" qty price).2 = .error .insufficientFunds ↔
      st.user.cash_balance < price * (qty : ℚ)) ∧
    (st.user.cash_balance < price * (qty : ℚ) →
      (execute_trade st sym "BUY" qty price).1 = st) := by
  by_cases h : st.user.cash_balance < price * (qty : ℚ)
  · simp [execute_trade_buy_insufficient h, h]
  · refine ⟨⟨fun he => ?_, fun hc => absurd hc h⟩, fun hc => absurd hc h⟩
    rcases hg : pget st.portfolio sym with _ | ex
    · simp [execute_trade_buy_new h hg] at he
    · simp [execute_trade_buy_existing h hg] at he

/-- Witness for C4: a BUY of 2 shares at 180 with only 100 in cash is
rejected and leaves the fresh account unchanged. -/
theorem buy_insufficient_funds_iff_and_no_mutation_witness :
    (execute_trade (freshAccount 100) "AAPL" "BUY" 2 180).2 =
      .error .insufficientFunds ∧
    (execute_trade (freshAccount 100) "AAPL" "BUY" 2 180).1 = freshAccount 100 :=
  ⟨(buy_insufficient_funds_iff_and_no_mutation (freshAccount 100) "AAPL" 2 180).1.mpr
      (by norm_num [freshAccount]),
   (buy_insufficient_funds_iff_and_no_mutation (freshAccount 100) "AAPL" 2 180).2
      (by norm_num [freshAccount])⟩

/-- C5: a SELL through `execute_trade` fails with the
InsufficientHoldings error exactly when the holding for the symbol is
absent or its stored quantity is below the requested quantity, and on
that error path the account state is unchanged. -/
theorem sell_insufficient_holdings_iff_and_no_mutation
    (st : AccountState) (sym : String) (qty : ℤ) (price : ℚ) :
    ((execute_trade st sym "SELL" qty price).2 = .error .insufficientHoldings ↔
      (pget st.portfolio sym = none ∨
        ∃ ex, pget st.portfolio sym = some ex ∧ ex.quantity < qty)) ∧
    ((pget st.portfolio sym = none ∨
        ∃ ex, pget st.portfolio sym = some ex ∧ ex.quantity < qty) →
      (execute_trade st sym "SELL" qty price).1 = st) := by
  rcases hg : pget st.portfolio sym with _ | ex
  · simp [execute_trade_sell_absent hg, hg]
  · by_cases hq : ex.quantity < qty
    · simp [execute_trade_sell_short hg hq, hg, hq]
    · simp [execute_trade_sell_ok hg hq, hg, hq]

/-- Witness for C5: a SELL of 1 share against an empty portfolio is
rejected and leaves the fresh account unchanged. -/
theorem sell_insufficient_holdings_iff_and_no_mutation_witness :
    (execute_trade (freshAccount 100) "AAPL" "SELL" 1 180).2 =
      .error .insufficientHoldings ∧
    (execute_trade (freshAccount 100) "AAPL" "SELL" 1 180).1 = freshAccount 100 := by
  have h := sell_insufficient_holdings_iff_and_no_mutation (freshAccount 100) "AAPL" 1 180
  have hnone : pget (freshAccount 100).portfolio "AAPL" = none := by
    simp [freshAccount, pget]
  exact ⟨h.1.mpr (Or.inl hnone), h.2 (Or.inl hnone)⟩

/-- C2: a successful BUY of quantity q at price p merges into an
existing holding as quantity q0 + q with average cost
round2 ((q0 * a0 + p * q) / (q0 + q)), creates the holding with
quantity q and average cost round2 p when absent, and in both cases
decreases `cash_balance` by exactly p * q. -/
theorem buy_updates_holding_and_cash
    (st : AccountState) (sym : String) (qty : ℤ) (price : ℚ)
    (h : ¬ st.user.cash_balance < price * (qty : ℚ)) :
    (execute_trade st sym "BUY" qty price).1.user.cash_balance =
      st.user.cash_balance - price * (qty : ℚ) ∧
    (∀ ex, pget st.portfolio sym = some ex →
      pget (execute_trade st sym "BUY" qty price).1.portfolio sym =
        some { symbol := sym, quantity := ex.quantity + qty,
               avg_buy_price := round2 (((ex.quantity : ℚ) * ex.avg_buy_price +
                 price * (qty : ℚ)) / ((ex.quantity + qty : ℤ) : ℚ)) }) ∧
    (pget st.portfolio sym = none →
      pget (execute_trade st sym "BUY" qty price).1.portfolio sym =
        some { symbol := sym, quantity := qty, avg_buy_price := round2 price }) := by
  rcases hg : pget st.portfolio sym with _ | ex0
  · rw [execute_trade_buy_new h hg]
    refine ⟨rfl, ?_, ?_⟩
    · intro ex hex
      cases hex
    · intro _
      exact pget_pset_self ..
  · rw [execute_trade_buy_existing h hg]
    refine ⟨rfl, ?_, ?_⟩
    · intro ex hex
      injection hex with hex
      subst hex
      exact pget_pset_self ..
    · intro hn
      cases hn

/-- Witness for C2: buying 5 more AAPL at 190 against a holding of 10
at 180 yields quantity 15 with average cost 183.33 and cash
97000 - 950 = 96050. -/
theorem buy_updates_holding_and_cash_witness :
    (execute_trade stWithAAPL "AAPL" "BUY" 5 190).1.user.cash_balance = 96050 ∧
    pget (execute_trade stWithAAPL "AAPL" "BUY" 5 190).1.portfolio "AAPL" =
      some { symbol := "AAPL", quantity := 15, avg_buy_price := 18333/100 } := by
  have h := buy_updates_holding_and_cash stWithAAPL "AAPL" 5 190
    (by norm_num [stWithAAPL])
  constructor
  · rw [h.1]
    norm_num [stWithAAPL]
  · have h2 := h.2.1 { symbol := "AAPL", quantity := 10, avg_buy_price := 180 }
      (by simp [stWithAAPL, pget])
    rw [h2]
    norm_num [round2, pyRound]

/-- C3: a successful SELL of quantity q against a holding of quantity
q0 ≥ q adds p * q to the cash balance, leaves quantity q0 - q with the
same average cost (deleting the holding exactly when q0 - q = 0), and
modifies no other account field and no holding of another symbol. -/
theorem sell_updates_cash_and_holding_frame
    (st : AccountState) (sym : String) (qty : ℤ) (price : ℚ) (ex : Holding)
    (hget : pget st.portfolio sym = some ex) (hq : ¬ ex.quantity < qty) :
    (execute_trade st sym "SELL" qty price).1.user.cash_balance =
      st.user.cash_balance + price * (qty : ℚ) ∧
    (ex.quantity - qty = 0 →
      pget (execute_trade st sym "SELL" qty price).1.portfolio sym = none) ∧
    (ex.quantity - qty ≠ 0 →
      pget (execute_trade st sym "SELL" qty price).1.portfolio sym =
        some { symbol := sym, quantity := ex.quantity - qty,
               avg_buy_price := ex.avg_buy_price }) ∧
    (execute_trade st sym "SELL" qty price).1.user.user_id = st.user.user_id ∧
    (execute_trade st sym "SELL" qty price).1.user.email = st.user.email ∧
    (execute_trade st sym "SELL" qty price).1.user.password = st.user.password ∧
    (∀ s, s ≠ sym →
      pget (execute_trade st sym "SELL" qty price).1.portfolio s =
        pget st.portfolio s) := by
  rw [execute_trade_sell_ok hget hq]
  refine ⟨rfl, ?_, ?_, rfl, rfl, rfl, ?_⟩
  · intro h0
    simp [h0, pget_pdel_self]
  · intro h0
    simp [h0, pget_pset_self]
  · intro s hs
    by_cases h0 : ex.quantity - qty = 0
    · simp [h0, pget_pdel_ne _ _ hs]
    · simp [h0, pget_pset_ne _ _ _ hs]

/-- Witness for C3: selling 4 of 10 AAPL at 200 yields cash 97800, a
remaining holding of 6 at the same average cost 180, untouched user
identity fields and an untouched GOOG entry. -/
theorem sell_updates_cash_and_holding_frame_witness :
    (execute_trade stWithAAPL "AAPL" "SELL" 4 200).1.user.cash_balance = 97800 ∧
    pget (execute_trade stWithAAPL "AAPL" "SELL" 4 200).1.portfolio "AAPL" =
      some { symbol := "AAPL", quantity := 6, avg_buy_price := 180 } ∧
    (execute_trade stWithAAPL "AAPL" "SELL" 4 200).1.user.email = "u1@example.com" ∧
    pget (execute_trade stWithAAPL "AAPL" "SELL" 4 200).1.portfolio "GOOG" = none := by
  have h := sell_updates_cash_and_holding_frame stWithAAPL "AAPL" 4 200
    { symbol := "AAPL", quantity := 10, avg_buy_price := 180 }
    (by simp [stWithAAPL, pget]) (by norm_num)
  refine ⟨?_, ?_, ?_, ?_⟩
  · rw [h.1]
    norm_num [stWithAAPL]
  · have h2 := h.2.2.1 (by norm_num)
    rw [h2]
    norm_num
  · rw [h.2.2.2.2.1]
    rfl
  · have h4 := h.2.2.2.2.2.2 "GOOG" (by simp)
    rw [h4]
    simp [stWithAAPL, pget]

/-- C7: for an account holding no position in the symbol, a BUY of q
at p (with sufficient cash) followed by a SELL of the same q at the
same p returns the cash balance exactly to its pre-BUY value and
leaves no holding in the symbol. -/
theorem buy_then_sell_restores_cash_and_removes_holding
    (st : AccountState) (sym : String) (qty : ℤ) (price : ℚ)
    (hnone : pget st.portfolio sym = none)
    (h : ¬ st.user.cash_balance < price * (qty : ℚ)) :
    (execute_trade (execute_trade st sym "BUY" qty price).1
        sym "SELL" qty price).1.user.cash_balance = st.user.cash_balance ∧
    pget (execute_trade (execute_trade st sym "BUY" qty price).1
        sym "SELL" qty price).1.portfolio sym = none := by
  rw [execute_trade_buy_new h hnone]
  have hget2 : pget (pset st.portfolio sym
      { symbol := sym, quantity := qty, avg_buy_price := round2 price }) sym =
      some { symbol := sym, quantity := qty, avg_buy_price := round2 price } :=
    pget_pset_self ..
  have hq2 : ¬ qty < qty := lt_irrefl qty
  rw [execute_trade_sell_ok hget2 hq2]
  constructor
  · show st.user.cash_balance - price * (qty : ℚ) + price * (qty : ℚ) =
      st.user.cash_balance
    ring
  · simp [pget_pdel_self]

/-- Witness for C7: on a fresh account with 100000 cash, BUY 10 AAPL at
180 then SELL 10 AAPL at 180 restores the cash balance to 100000 and
leaves no AAPL holding. -/
theorem buy_then_sell_restores_cash_and_removes_holding_witness :
    (execute_trade (execute_trade (freshAccount 100000) "AAPL" "BUY" 10 180).1
        "AAPL" "SELL" 10 180).1.user.cash_balance =
      (freshAccount 100000).user.cash_balance ∧
    pget (execute_trade (execute_trade (freshAccount 100000) "AAPL" "BUY" 10 180).1
        "AAPL" "SELL" 10 180).1.portfolio "AAPL" = none :=
  buy_then_sell_restores_cash_and_removes_holding (freshAccount 100000) "AAPL" 10 180
    (by simp [freshAccount, pget]) (by norm_num [freshAccount])

/-- Every single `execute_trade` call with positive quantity and price
preserves the invariant `Inv` (helper for C1). -/
theorem execute_trade_preserves_Inv (st : AccountState) (sym side : String)
    (qty : ℤ) (price : ℚ) (hq : 0 < qty) (hp : 0 < price) (hInv : Inv st) :
    Inv (execute_trade st sym side qty price).1 := by
  by_cases hb : side = "BUY"
  · subst hb
    by_cases hc : st.user.cash_balance < price * (qty : ℚ)
    · rw [execute_trade_buy_insufficient hc]
      exact hInv
    · rcases hg : pget st.portfolio sym with _ | ex
      · rw [execute_trade_buy_new hc hg]
        refine ⟨sub_nonneg.mpr (not_lt.mp hc), ?_⟩
        intro e he
        rcases mem_pset he with rfl | he
        · simpa using hq
        · exact hInv.2 e he
      · rw [execute_trade_buy_existing hc hg]
        refine ⟨sub_nonneg.mpr (not_lt.mp hc), ?_⟩
        intro e he
        rcases mem_pset he with rfl | he
        · have hex := hInv.2 _ (pget_mem hg)
          simp only at hex ⊢
          omega
        · exact hInv.2 e he
  · by_cases hs : side = "SELL"
    · subst hs
      rcases hg : pget st.portfolio sym with _ | ex
      · rw [execute_trade_sell_absent hg]
        exact hInv
      · by_cases hlt : ex.quantity < qty
        · rw [execute_trade_sell_short hg hlt]
          exact hInv
        · rw [execute_trade_sell_ok hg hlt]
          constructor
          · have h1 : (0:ℚ) ≤ price * (qty : ℚ) :=
              le_of_lt (mul_pos hp (by exact_mod_cast hq))
            exact add_nonneg hInv.1 h1
          · intro e he
            simp only at he
            by_cases h0 : ex.quantity - qty = 0
            · rw [if_pos h0] at he
              exact hInv.2 e (mem_pdel he)
            · rw [if_neg h0] at he
              rcases mem_pset he with rfl | he
              · simp only
                omega
              · exact hInv.2 e he
    · rw [execute_trade_invalid_side hb hs]
      exact hInv

/-- A whole sequence of calls with positive quantities and prices
preserves the invariant (helper for C1). -/
theorem runTrades_preserves_Inv (calls : List TradeCall) (st : AccountState)
    (hc : ∀ c ∈ calls, 0 < c.qty ∧ 0 < c.price) (hInv : Inv st) :
    Inv (runTrades st calls) := by
  induction calls generalizing st with
  | nil => simpa [runTrades] using hInv
  | cons c cs ih =>
    have h1 := hc c (List.mem_cons_self c cs)
    rw [runTrades]
    exact ih _ (fun d hd => hc d (List.mem_cons_of_mem _ hd))
      (execute_trade_preserves_Inv st c.symbol c.side c.qty c.price h1.1 h1.2 hInv)

/-- C1: for every sequence of `execute_trade` calls with positive
quantity and positive price on one account, starting from a fresh
account with non-negative cash and no holdings, the cash balance is
non-negative after every call (i.e. after every prefix of the
sequence) and every stored holding has positive quantity. -/
theorem trades_preserve_nonneg_cash_and_positive_quantities
    (init : ℚ) (hinit : 0 ≤ init) (calls pre suf : List TradeCall)
    (hsplit : calls = pre ++ suf)
    (hc : ∀ c ∈ calls, 0 < c.qty ∧ 0 < c.price) :
    0 ≤ (runTrades (freshAccount init) pre).user.cash_balance ∧
    ∀ e ∈ (runTrades (freshAccount init) pre).portfolio, 0 < e.2.quantity := by
  have hpre : ∀ c ∈ pre, 0 < c.qty ∧ 0 < c.price := by
    intro c hcp
    exact hc c (by simp [hsplit, hcp])
  have h0 : Inv (freshAccount init) :=
    ⟨by simpa [freshAccount] using hinit, by simp [freshAccount]⟩
  exact runTrades_preserves_Inv pre _ hpre h0

/-- Witness for C1: after BUY 10 AAPL at 180 then SELL 10 AAPL at 185
from 100000, the cash balance is still non-negative and all stored
quantities positive. -/
theorem trades_preserve_nonneg_cash_and_positive_quantities_witness :
    0 ≤ (runTrades (freshAccount 100000)
        [⟨"AAPL", "BUY", 10, 180⟩, ⟨"AAPL", "SELL", 10, 185⟩]).user.cash_balance ∧
    ∀ e ∈ (runTrades (freshAccount 100000)
        [⟨"AAPL", "BUY", 10, 180⟩, ⟨"AAPL", "SELL", 10, 185⟩]).portfolio,
      0 < e.2.quantity :=
  trades_preserve_nonneg_cash_and_positive_quantities 100000 (by norm_num)
    [⟨"AAPL", "BUY", 10, 180⟩, ⟨"AAPL", "SELL", 10, 185⟩]
    [⟨"AAPL", "BUY", 10, 180⟩, ⟨"AAPL", "SELL", 10, 185⟩] [] rfl
    (by
      intro c hcm
      simp only [List.mem_cons, List.not_mem_nil, or_false] at hcm
      rcases hcm with rfl | rfl <;> norm_num)

/-- If `round2` leaves a value unchanged, that value was already at
2-decimal precision (helper for C10). -/
theorem round2_fix_den_one {x : ℚ} (he : round2 x = x) : (100 * x).den = 1 := by
  have h2 : 100 * x = ((pyRound (100 * x) : ℤ) : ℚ) := by
    conv_lhs => rw [← he]
    rw [round2]
    ring
  rw [h2, Rat.den_intCast]

/-- C10: every successful `execute_trade` changes `cash_balance` by the
exact unrounded amount `price * quantity` (minus for BUY, plus for
SELL), while the appended `Trade` stores `round2 price` and
`round2 (price * quantity)`; hence whenever `price * quantity` is not
at 2-decimal precision the recorded amount differs from it. -/
theorem trade_amount_rounded_cash_exact
    (st : AccountState) (sym side : String) (qty : ℤ) (price : ℚ)
    (t : Trade) (h : (execute_trade st sym side qty price).2 = .ok t) :
    t.price = round2 price ∧
    t.amount = round2 (price * (qty : ℚ)) ∧
    ((execute_trade st sym side qty price).1.user.cash_balance =
        st.user.cash_balance - price * (qty : ℚ) ∨
      (execute_trade st sym side qty price).1.user.cash_balance =
        st.user.cash_balance + price * (qty : ℚ)) ∧
    ((100 * (price * (qty : ℚ))).den ≠ 1 → t.amount ≠ price * (qty : ℚ)) := by
  have hamount : t.amount = round2 (price * (qty : ℚ)) →
      (100 * (price * (qty : ℚ))).den ≠ 1 → t.amount ≠ price * (qty : ℚ) := by
    intro ha hden he
    exact hden (round2_fix_den_one (by rw [← ha, he]))
  by_cases hb : side = "BUY"
  · subst hb
    by_cases hc : st.user.cash_balance < price * (qty : ℚ)
    · rw [execute_trade_buy_insufficient hc] at h
      cases h
    · rcases hg : pget st.portfolio sym with _ | ex
      · rw [execute_trade_buy_new hc hg] at h ⊢
        injection h with h
        subst h
        exact ⟨rfl, rfl, Or.inl rfl, hamount rfl⟩
      · rw [execute_trade_buy_existing hc hg] at h ⊢
        injection h with h
        subst h
        exact ⟨rfl, rfl, Or.inl rfl, hamount rfl⟩
  · by_cases hs : side = "SELL"
    · subst hs
      rcases hg : pget st.portfolio sym with _ | ex
      · rw [execute_trade_sell_absent hg] at h
        cases h
      · by_cases hlt : ex.quantity < qty
        · rw [execute_trade_sell_short hg hlt] at h
          cases h
        · rw [execute_trade_sell_ok hg hlt] at h ⊢
          injection h with h
          subst h
          exact ⟨rfl, rfl, Or.inr rfl, hamount rfl⟩
    · rw [execute_trade_invalid_side hb hs] at h
      cases h

/-- Witness for C10: BUY 1 share at 10.005 from 100 cash.  The cash
balance drops by exactly 10.005 while the recorded trade amount is the
rounded 10, so the ledger entry differs from the cash change. -/
theorem trade_amount_rounded_cash_exact_witness :
    ({ symbol := "AAPL", side := "BUY", quantity := 1, price := round2 (2001/200),
       amount := round2 ((2001/200 : ℚ) * ((1 : ℤ) : ℚ)) } : Trade).amount ≠
      (2001/200 : ℚ) * ((1 : ℤ) : ℚ) ∧
    ((execute_trade (freshAccount 100) "AAPL" "BUY" 1 (2001/200)).1.user.cash_balance =
        (freshAccount 100).user.cash_balance - (2001/200 : ℚ) * ((1 : ℤ) : ℚ) ∨
      (execute_trade (freshAccount 100) "AAPL" "BUY" 1 (2001/200)).1.user.cash_balance =
        (freshAccount 100).user.cash_balance + (2001/200 : ℚ) * ((1 : ℤ) : ℚ)) := by
  have h := trade_amount_rounded_cash_exact (freshAccount 100) "AAPL" "BUY" 1 (2001/200)
    { symbol := "AAPL", side := "BUY", quantity := 1, price := round2 (2001/200),
      amount := round2 ((2001/200 : ℚ) * ((1 : ℤ) : ℚ)) }
    (by
      rw [execute_trade_buy_new (by norm_num [freshAccount])
        (by simp [freshAccount, pget])])
  exact ⟨h.2.2.2 (by norm_num), h.2.2.1⟩

/-- The responses of the `/api/orders` route that matter to the engine
claims: a 400 validation rejection with its message, a 400 carrying
the `ValueError` of `execute_trade`, or the success payload. -/
inductive ApiResult where
  | badRequest (msg : String)
  | tradeError (e : TradeError)
  | ok (t : Trade)
deriving DecidableEq

/-- `api_orders` (app.py lines 199-237): the POST handler behind
`ExecuteTrade`.  It upper-cases symbol and side, rejects an empty
symbol, a side other than BUY/SELL, or a quantity ≤ 0 before touching
the engine, rejects an unknown symbol (`stockPrice = none`), and
otherwise calls `execute_trade` at the quoted price. -/
def api_orders (st : AccountState) (symbol side : String) (quantity : ℤ)
    (stockPrice : Option ℚ) : AccountState × ApiResult :=
  let symbol := symbol.toUpper
  let side := side.toUpper
  if symbol = "" ∨ (side ≠ "BUY" ∧ side ≠ "SELL") ∨ quantity ≤ 0 then
    (st, .badRequest "symbol, side (BUY/SELL), quantity>0 required")
  else
    match stockPrice with
    | none => (st, .badRequest "Invalid symbol")
    | some price =>
      match execute_trade st symbol side quantity price with
      | (st', .ok t) => (st', .ok t)
      | (st', .error e) => (st', .tradeError e)

/-- C6: every `ExecuteTrade` request with quantity ≤ 0 (any side) is
rejected with the invalid-quantity error message and applies no
mutation to the account's cash balance, holdings or trade ledger: the
state comes back exactly as it went in. -/
theorem invalid_quantity_rejected_without_mutation
    (st : AccountState) (symbol side : String) (quantity : ℤ)
    (stockPrice : Option ℚ) (hq : quantity ≤ 0) :
    api_orders st symbol side quantity stockPrice =
      (st, .badRequest "symbol, side (BUY/SELL), quantity>0 required") := by
  simp [api_orders, hq]

/-- Witness for C6: a BUY of quantity 0 is rejected with the
validation message and an unchanged account. -/
theorem invalid_quantity_rejected_without_mutation_witness :
    api_orders (freshAccount 100000) "AAPL" "BUY" 0 (some 180) =
      (freshAccount 100000,
        .badRequest "symbol, side (BUY/SELL), quantity>0 required") :=
  invalid_quantity_rejected_without_mutation (freshAccount 100000) "AAPL" "BUY" 0
    (some 180) (by norm_num)

/-- One row of the portfolio view built by `api_portfolio`
(app.py lines 162-178). -/
structure PortfolioRow where
  symbol : String
  quantity : ℤ
  avg_buy_price : ℚ
  current_price : ℚ
  market_value : ℚ
  unrealized_pl : ℚ
deriving DecidableEq

/-- The loop body of `api_portfolio` (app.py lines 163-178) for one
holding: `current_price = stock["price"] if stock else 0.0`,
`market_value = quantity * current_price`,
`cost = quantity * avg_buy_price`,
`unrealized_pl = market_value - cost`, and the response rounds
`current_price`, `market_value` and `unrealized_pl` to 2 decimals. -/
def api_portfolio_row (h : Holding) (stockPrice : Option ℚ) : PortfolioRow :=
  let current_price : ℚ :=
    match stockPrice with
    | some p => p
    | none => 0
  let market_value := (h.quantity : ℚ) * current_price
  let cost := (h.quantity : ℚ) * h.avg_buy_price
  let unrealized_pl := market_value - cost
  { symbol := h.symbol, quantity := h.quantity, avg_buy_price := h.avg_buy_price,
    current_price := round2 current_price,
    market_value := round2 market_value,
    unrealized_pl := round2 unrealized_pl }

/-- `api_portfolio` (app.py lines 152-185): one row per holding,
looking each symbol up in the quotes map. -/
def api_portfolio (holdings : List Holding) (stocks : String → Option ℚ) :
    List PortfolioRow :=
  holdings.map (fun h => api_portfolio_row h (stocks h.symbol))

/-- Modelled from claim C8's words, not from the code: the row the
claim describes, with `current_price` taken to be the symbol's last
known price when the quote is unavailable. -/
def api_portfolio_row_claim (h : Holding) (stockPrice : Option ℚ)
    (lastKnown : ℚ) : PortfolioRow :=
  let current_price : ℚ :=
    match stockPrice with
    | some p => p
    | none => lastKnown
  let market_value := (h.quantity : ℚ) * current_price
  let cost := (h.quantity : ℚ) * h.avg_buy_price
  let unrealized_pl := market_value - cost
  { symbol := h.symbol, quantity := h.quantity, avg_buy_price := h.avg_buy_price,
    current_price := round2 current_price,
    market_value := round2 market_value,
    unrealized_pl := round2 unrealized_pl }

/-- C8 counterexample: for a holding of 1 share at average cost 150
whose symbol has no available quote and whose last known price is 180,
the code prices the row at 0, not at the last known price, so the
claimed row and the code's row differ. -/
theorem portfolio_missing_quote_prices_at_zero :
    (api_portfolio_row ⟨"TSLA", 1, 150⟩ none).current_price = 0 ∧
    (api_portfolio_row_claim ⟨"TSLA", 1, 150⟩ none 180).current_price = 180 ∧
    api_portfolio_row ⟨"TSLA", 1, 150⟩ none ≠
      api_portfolio_row_claim ⟨"TSLA", 1, 150⟩ none 180 := by
  refine ⟨?_, ?_, ?_⟩ <;>
    norm_num [api_portfolio_row, api_portfolio_row_claim, round2, pyRound]

/-- C8 amended: the valuation is total — one row for every holding,
never failing on a missing quote — and each row uses the quoted price,
or 0 when the quote is unavailable, with
`market_value = round2 (quantity * current_price)`,
`cost = quantity * avg_buy_price` and
`unrealized_pl = round2 (market_value_raw - cost)`. -/
theorem portfolio_view_total_with_zero_fallback
    (holdings : List Holding) (stocks : String → Option ℚ) :
    (api_portfolio holdings stocks).length = holdings.length ∧
    ∀ h ∈ holdings,
      api_portfolio_row h (stocks h.symbol) ∈ api_portfolio holdings stocks ∧
      (api_portfolio_row h (stocks h.symbol)).current_price =
        round2 ((stocks h.symbol).getD 0) ∧
      (api_portfolio_row h (stocks h.symbol)).market_value =
        round2 ((h.quantity : ℚ) * (stocks h.symbol).getD 0) ∧
      (api_portfolio_row h (stocks h.symbol)).unrealized_pl =
        round2 ((h.quantity : ℚ) * (stocks h.symbol).getD 0 -
          (h.quantity : ℚ) * h.avg_buy_price) := by
  refine ⟨by simp [api_portfolio], ?_⟩
  intro h hm
  refine ⟨List.mem_map_of_mem _ hm, ?_, ?_, ?_⟩ <;>
    rcases hs : stocks h.symbol with _ | p <;>
    simp [api_portfolio_row]

/-- Witness for C8's amended claim: a one-holding portfolio whose
symbol has no quote still yields its row, priced at 0. -/
theorem portfolio_view_total_with_zero_fallback_witness :
    (api_portfolio [⟨"TSLA", 1, 150⟩] (fun _ => none)).length = 1 ∧
    (api_portfolio_row (⟨"TSLA", 1, 150⟩ : Holding)
        ((fun _ => (none : Option ℚ)) "TSLA")).current_price =
      round2 (((fun _ => (none : Option ℚ)) "TSLA").getD 0) := by
  have h := portfolio_view_total_with_zero_fallback [⟨"TSLA", 1, 150⟩] (fun _ => none)
  exact ⟨h.1, (h.2 ⟨"TSLA", 1, 150⟩ (by simp)).2.1⟩

/-- C9 model: `execute_trade` takes no lock (aws_client.py contains no
threading primitive at all), and the Python statement
`user.cash_balance -= amount` (line 306) is a read of the shared
`User.cash_balance` field followed by a write of it.  The events below
are those two halves for two concurrent BUY trades A and B against the
same account. -/
inductive Event where
  | readA
  | writeA
  | readB
  | writeB
deriving DecidableEq

/-- Shared cash balance plus each thread's local copy of the value it
read. -/
structure ConcState where
  cash : ℚ
  localA : ℚ
  localB : ℚ
deriving DecidableEq

/-- One event: a read loads the shared balance into the thread's
local, a write stores the local minus that thread's trade amount —
exactly the two halves of `user.cash_balance -= amount`. -/
def stepEvent (a b : ℚ) (s : ConcState) : Event → ConcState
  | .readA => { s with localA := s.cash }
  | .writeA => { s with cash := s.localA - a }
  | .readB => { s with localB := s.cash }
  | .writeB => { s with cash := s.localB - b }

/-- Run a schedule of events from shared cash `c0` and return the
final shared balance. -/
def runEvents (a b c0 : ℚ) (es : List Event) : ℚ :=
  (es.foldl (stepEvent a b) { cash := c0, localA := 0, localB := 0 }).cash

/-- Is the event one of trade A's? -/
def isA : Event → Bool
  | .readA => true
  | .writeA => true
  | _ => false

/-- A schedule is an interleaving of the two trades when each trade
contributes exactly its read followed by its write. -/
def interleavingOfTwoTrades (es : List Event) : Prop :=
  es.filter isA = [.readA, .writeA] ∧
  es.filter (fun e => !(isA e)) = [.readB, .writeB]

/-- C9: the engine does not serialize per-account read-modify-write
sequences.  With cash 100 and concurrent BUYs of amount 30 (trade A)
and 50 (trade B), the schedule readA, readB, writeA, writeB is a valid
interleaving of the two unlocked trades and leaves cash 50 (trade A's
debit is lost), while `execute_trade` run sequentially in either order
leaves cash 20 — the concurrent outcome matches no sequential
order. -/
theorem unsynchronized_trades_admit_lost_update :
    interleavingOfTwoTrades [.readA, .readB, .writeA, .writeB] ∧
    runEvents 30 50 100 [.readA, .readB, .writeA, .writeB] = 50 ∧
    (runTrades (freshAccount 100)
      [⟨"AAPL", "BUY", 1, 30⟩, ⟨"GOOG", "BUY", 1, 50⟩]).user.cash_balance = 20 ∧
    (runTrades (freshAccount 100)
      [⟨"GOOG", "BUY", 1, 50⟩, ⟨"AAPL", "BUY", 1, 30⟩]).user.cash_balance = 20 ∧
    (50 : ℚ) ≠ 20 := by
  refine ⟨⟨rfl, rfl⟩, ?_, ?_, ?_, by norm_num⟩
  · norm_num [runEvents, stepEvent]
  · norm_num [runTrades, execute_trade, freshAccount, pget, pset]
  · norm_num [runTrades, execute_trade, freshAccount, pget, pset]

end StockTrading
